import Mathlib

/-!
Verification development for the topogi-lang evaluator's built-in procedure
layer (`src/ast.rs`, `src/buildin.rs`).

The expression data model follows `Exp` in `src/ast.rs`, with the `BuildIn`
variant following its actual usage in `src/buildin.rs` (`Exp::BuildIn(func)`
holding a bare function pointer; the pointer is modelled as a `Native` tag and
`runNative` maps each tag to the embedded implementation of the corresponding
Rust function).  The evaluator `eval` itself is not part of the provided
sources (only its callers in `buildin.rs` are), so it is modelled from the
specification; every native procedure body is translated directly from
`src/buildin.rs`.

Rust `i64` arithmetic is embedded as `Int` together with an explicit range
check: an operation whose mathematical result falls outside
`[-2^63, 2^63)` is modelled as `Res.panicked`, mirroring the
overflow panic of checked Rust arithmetic; likewise the `usize` subtraction
`s.len() - 1` in `string_init` panics when `s.len() = 0`.  Fuel (`Nat`)
makes every recursive function structurally terminating; running out of fuel
is `none`, which is distinct from every program behaviour.
-/

/-- Tags naming the native Rust functions of `src/buildin.rs`; the source
stores raw function pointers (`fn(&[Exp], &Module, &mut VariableGenerator)`),
which are modelled as this enumeration dispatched by `runNative`. -/
inductive Native where
  | add
  | sub
  | mul
  | div
  | eq
  | ne
  | cons
  | list
  | first
  | second
  | third
  | nth
  | is_atom
  | print
  | println
  | string_append
  | string_head
  | string_tail
  | string_init
  | string_last
  | symbol_to_string
deriving DecidableEq, Repr

/-- The expression type `Exp` of `src/ast.rs`.  `Integer` carries a
mathematical integer (the `i64` range is enforced by explicit checks in the
arithmetic natives), and `BuildIn` carries a `Native` tag in place of the Rust
function pointer. -/
inductive Exp where
  | Nil
  | Bool (b : Bool)
  | Integer (i : Int)
  | String (s : String)
  | Symbol (s : String)
  | Lambda (p : String) (body : Exp)
  | Apply (f : Exp) (a : Exp)
  | List (items : List Exp)
  | If (c : Exp) (t : Exp) (e : Exp)
  | Quote (e : Exp)
  | Let (p : String) (v : Exp) (body : Exp)
  | Case (scrut : Exp) (clauses : List (Exp × Exp))
  | BuildIn (f : Native)
deriving Repr

/-- The evaluation error type.  `InvalidArgs` and `DivideByZero` are the two
variants constructed in `src/buildin.rs` (the spec calls `InvalidArgs`
"ArityOrTypeMismatch").  The remaining variants are modelled from the spec's
error taxonomy for the evaluator, which is absent from the provided sources. -/
inductive EvalError where
  | UnboundName (s : String)
  | TypeMismatch (e : Exp)
  | NotApplicable (e : Exp)
  | NonExhaustiveMatch (e : Exp)
  | InvalidArgs (args : List Exp)
  | DivideByZero (e : Exp)
deriving Repr

/-- Outcome of running a piece of code: a value (with the variable-generator
counter threaded through), a returned `EvalError`, or a Rust panic
(arithmetic overflow).  `Res Exp` plays the role of
`Result<Exp, EvalError>`. -/
inductive Res (α : Type) where
  | ok (a : α) (g : Nat)
  | err (e : EvalError)
  | panicked
deriving Repr

/-- Lifts an element-wise fallible equality to lists (used for the `List` and
`Case`-clause payloads of `beqF`). -/
def beqListF (f : Exp → Exp → Option Bool) : List Exp → List Exp → Option Bool
  | [], [] => some true
  | x :: xs, y :: ys =>
    match f x y with
    | some true => beqListF f xs ys
    | some false => some false
    | none => none
  | _, _ => some false

/-- Lifts an element-wise fallible equality to clause lists. -/
def beqClausesF (f : Exp → Exp → Option Bool) :
    List (Exp × Exp) → List (Exp × Exp) → Option Bool
  | [], [] => some true
  | c :: cs, d :: ds =>
    match f c.1 d.1 with
    | some true =>
      match f c.2 d.2 with
      | some true => beqClausesF f cs ds
      | some false => some false
      | none => none
    | some false => some false
    | none => none
  | _, _ => some false

/-- Structural equality on `Exp`, modelling the derived `PartialEq` of
`src/ast.rs` (two `BuildIn`s compare by function pointer, i.e. by tag).
The fuel argument only makes the recursion structural; `none` (fuel ran out)
never models a program behaviour. -/
def beqF : Nat → Exp → Exp → Option Bool
  | 0, _, _ => none
  | n + 1, a, b =>
    match a, b with
    | .Nil, .Nil => some true
    | .Bool x, .Bool y => some (x == y)
    | .Integer x, .Integer y => some (x == y)
    | .String x, .String y => some (x == y)
    | .Symbol x, .Symbol y => some (x == y)
    | .Lambda p x, .Lambda q y =>
      if p = q then beqF n x y else some false
    | .Apply f1 a1, .Apply f2 a2 =>
      match beqF n f1 f2 with
      | some true => beqF n a1 a2
      | some false => some false
      | none => none
    | .List xs, .List ys => beqListF (beqF n) xs ys
    | .If c1 t1 e1, .If c2 t2 e2 =>
      match beqF n c1 c2 with
      | some true =>
        match beqF n t1 t2 with
        | some true => beqF n e1 e2
        | some false => some false
        | none => none
      | some false => some false
      | none => none
    | .Quote x, .Quote y => beqF n x y
    | .Let p v1 b1, .Let q v2 b2 =>
      if p = q then
        match beqF n v1 v2 with
        | some true => beqF n b1 b2
        | some false => some false
        | none => none
      else some false
    | .Case s1 cl1, .Case s2 cl2 =>
      match beqF n s1 s2 with
      | some true => beqClausesF (beqF n) cl1 cl2
      | some false => some false
      | none => none
    | .BuildIn f1, .BuildIn f2 => some (f1 == f2)
    | _, _ => some false

/-- The definition table (`Module` in the sources): a name plus a mapping
from identifiers to expressions.  The Rust `HashMap` (unique keys) is
modelled as an association list. -/
structure Module' where
  name : String
  defines : List (String × Exp)

/-- Lookup of a top-level name in the definition table. -/
def Module'.lookup (m : Module') (s : String) : Option Exp :=
  (m.defines.find? (fun p => p.1 == s)).map (fun p => p.2)

/-- `Exp::as_integer` as used by `src/buildin.rs`. -/
def as_integer : Exp → Option Int
  | .Integer i => some i
  | _ => none

/-- `Exp::as_list` as used by `src/buildin.rs`. -/
def as_list : Exp → Option (List Exp)
  | .List items => some items
  | _ => none

/-- `Exp::as_string` as used by `src/buildin.rs`. -/
def as_string : Exp → Option String
  | .String s => some s
  | _ => none

/-- `Exp::as_symbol` as used by `src/buildin.rs`. -/
def as_symbol : Exp → Option String
  | .Symbol s => some s
  | _ => none

/-- The `i64` range. -/
def inI64 (x : Int) : Prop := -(2 ^ 63) ≤ x ∧ x < 2 ^ 63

instance (x : Int) : Decidable (inI64 x) := by unfold inI64; infer_instance

/-- Wraps a mathematical result of an `i64` operation: in-range results are
returned, out-of-range results model Rust's arithmetic-overflow panic. -/
def checkedI64 (x : Int) (g : Nat) : Res Exp :=
  if inI64 x then .ok (.Integer x) g else .panicked

/-- The `n as usize` cast applied to an `i64` before indexing in `nth`:
two's-complement wrap into `[0, 2^64)`. -/
def castUsize (n : Int) : Nat := (n % (2 ^ 64 : Int)).toNat

/-- Throughout the natives, `Ev` abstracts the evaluator closure
`|e| eval(e, module, gen)` that `src/buildin.rs` reaches through its
`module`/`gen` parameters. -/
abbrev Ev : Type := Exp → Nat → Option (Res Exp)

/-- `parse_unary` from `src/buildin.rs`: exactly one argument, evaluated. -/
def parse_unary (ev : Ev) (args : List Exp) (g : Nat) : Option (Res Exp) :=
  match args with
  | [a] => ev a g
  | _ => some (.err (.InvalidArgs args))

/-- `parse_binary` from `src/buildin.rs`: exactly two arguments, both
evaluated left to right. -/
def parse_binary (ev : Ev) (args : List Exp) (g : Nat) : Option (Res (Exp × Exp)) :=
  match args with
  | [a, b] =>
    match ev a g with
    | some (.ok lhs g1) =>
      match ev b g1 with
      | some (.ok rhs g2) => some (.ok (lhs, rhs) g2)
      | some (.err e) => some (.err e)
      | some .panicked => some .panicked
      | none => none
    | some (.err e) => some (.err e)
    | some .panicked => some .panicked
    | none => none
  | _ => some (.err (.InvalidArgs args))

/-- `parse_binary_integer` from `src/buildin.rs`: two evaluated arguments,
each required to be an integer (`ok_or(InvalidArgs(args))`). -/
def parse_binary_integer (ev : Ev) (args : List Exp) (g : Nat) :
    Option (Res (Int × Int)) :=
  match args with
  | [a, b] =>
    match ev a g with
    | some (.ok lhs g1) =>
      match ev b g1 with
      | some (.ok rhs g2) =>
        match as_integer lhs, as_integer rhs with
        | some i, some j => some (.ok (i, j) g2)
        | _, _ => some (.err (.InvalidArgs args))
      | some (.err e) => some (.err e)
      | some .panicked => some .panicked
      | none => none
    | some (.err e) => some (.err e)
    | some .panicked => some .panicked
    | none => none
  | _ => some (.err (.InvalidArgs args))

/-- `add` from `src/buildin.rs` (`lhs + rhs` on `i64`). -/
def add (ev : Ev) (args : List Exp) (g : Nat) : Option (Res Exp) :=
  match parse_binary_integer ev args g with
  | some (.ok (lhs, rhs) g1) => some (checkedI64 (lhs + rhs) g1)
  | some (.err e) => some (.err e)
  | some .panicked => some .panicked
  | none => none

/-- `sub` from `src/buildin.rs`. -/
def sub (ev : Ev) (args : List Exp) (g : Nat) : Option (Res Exp) :=
  match parse_binary_integer ev args g with
  | some (.ok (lhs, rhs) g1) => some (checkedI64 (lhs - rhs) g1)
  | some (.err e) => some (.err e)
  | some .panicked => some .panicked
  | none => none

/-- `mul` from `src/buildin.rs`. -/
def mul (ev : Ev) (args : List Exp) (g : Nat) : Option (Res Exp) :=
  match parse_binary_integer ev args g with
  | some (.ok (lhs, rhs) g1) => some (checkedI64 (lhs * rhs) g1)
  | some (.err e) => some (.err e)
  | some .panicked => some .panicked
  | none => none

/-- `div` from `src/buildin.rs`: a zero divisor yields
`DivideByZero(apply(args[0], args[1]))` built from the original
(pre-evaluation) operand expressions; otherwise the truncated `i64` quotient
(`Int.div` rounds toward zero, as Rust `/` does). -/
def div (ev : Ev) (args : List Exp) (g : Nat) : Option (Res Exp) :=
  match parse_binary_integer ev args g with
  | some (.ok (lhs, rhs) g1) =>
    if rhs = 0 then
      some (.err (.DivideByZero (.Apply (args.getD 0 .Nil) (args.getD 1 .Nil))))
    else
      some (checkedI64 (Int.tdiv lhs rhs) g1)
  | some (.err e) => some (.err e)
  | some .panicked => some .panicked
  | none => none

/-- `eq` from `src/buildin.rs` (`lhs == rhs`, derived structural equality).
The fuel is the evaluator's fuel, threaded in by `runNative`. -/
def eq (ev : Ev) (n : Nat) (args : List Exp) (g : Nat) : Option (Res Exp) :=
  match parse_binary ev args g with
  | some (.ok (lhs, rhs) g1) =>
    match beqF n lhs rhs with
    | some b => some (.ok (.Bool b) g1)
    | none => none
  | some (.err e) => some (.err e)
  | some .panicked => some .panicked
  | none => none

/-- `ne` from `src/buildin.rs` (`lhs != rhs`). -/
def ne (ev : Ev) (n : Nat) (args : List Exp) (g : Nat) : Option (Res Exp) :=
  match parse_binary ev args g with
  | some (.ok (lhs, rhs) g1) =>
    match beqF n lhs rhs with
    | some b => some (.ok (.Bool !b) g1)
    | none => none
  | some (.err e) => some (.err e)
  | some .panicked => some .panicked
  | none => none

/-- `cons` from `src/buildin.rs`: prepends the first value to the second when
the second is a list, otherwise forms the two-element list
(`as_list rhs().unwrap_or(&[rhs])`). -/
def cons (ev : Ev) (args : List Exp) (g : Nat) : Option (Res Exp) :=
  match parse_binary ev args g with
  | some (.ok (lhs, rhs) g1) =>
    some (.ok (.List (lhs :: (match as_list rhs with
      | some items => items
      | none => [rhs]))) g1)
  | some (.err e) => some (.err e)
  | some .panicked => some .panicked
  | none => none

/-- The argument traversal of the `list` native
(`args.iter().map(eval).collect::<Result<_, _>>()`): left-to-right, stopping
at the first failure. -/
def evalArgs (ev : Ev) : List Exp → Nat → Option (Res (List Exp))
  | [], g => some (.ok [] g)
  | a :: rest, g =>
    match ev a g with
    | some (.ok v g1) =>
      match evalArgs ev rest g1 with
      | some (.ok vs g2) => some (.ok (v :: vs) g2)
      | some (.err e) => some (.err e)
      | some .panicked => some .panicked
      | none => none
    | some (.err e) => some (.err e)
    | some .panicked => some .panicked
    | none => none

/-- `list` from `src/buildin.rs`. -/
def list (ev : Ev) (args : List Exp) (g : Nat) : Option (Res Exp) :=
  match evalArgs ev args g with
  | some (.ok vs g1) => some (.ok (.List vs) g1)
  | some (.err e) => some (.err e)
  | some .panicked => some .panicked
  | none => none

/-- `first` from `src/buildin.rs`. -/
def first (ev : Ev) (args : List Exp) (g : Nat) : Option (Res Exp) :=
  match parse_unary ev args g with
  | some (.ok v g1) =>
    match (as_list v).bind (fun items => items.get? 0) with
    | some x => some (.ok x g1)
    | none => some (.err (.InvalidArgs args))
  | some (.err e) => some (.err e)
  | some .panicked => some .panicked
  | none => none

/-- `second` from `src/buildin.rs`. -/
def second (ev : Ev) (args : List Exp) (g : Nat) : Option (Res Exp) :=
  match parse_unary ev args g with
  | some (.ok v g1) =>
    match (as_list v).bind (fun items => items.get? 1) with
    | some x => some (.ok x g1)
    | none => some (.err (.InvalidArgs args))
  | some (.err e) => some (.err e)
  | some .panicked => some .panicked
  | none => none

/-- `third` from `src/buildin.rs`. -/
def third (ev : Ev) (args : List Exp) (g : Nat) : Option (Res Exp) :=
  match parse_unary ev args g with
  | some (.ok v g1) =>
    match (as_list v).bind (fun items => items.get? 2) with
    | some x => some (.ok x g1)
    | none => some (.err (.InvalidArgs args))
  | some (.err e) => some (.err e)
  | some .panicked => some .panicked
  | none => none

/-- `nth` from `src/buildin.rs`: evaluates the index, then the list, and
indexes with `list.get(n as usize)`; every validation failure is
`InvalidArgs(args)` with the raw argument list. -/
def nth (ev : Ev) (args : List Exp) (g : Nat) : Option (Res Exp) :=
  match args with
  | [a, b] =>
    match ev a g with
    | some (.ok nv g1) =>
      match as_integer nv with
      | none => some (.err (.InvalidArgs args))
      | some n =>
        match ev b g1 with
        | some (.ok lv g2) =>
          match as_list lv with
          | none => some (.err (.InvalidArgs args))
          | some items =>
            match items.get? (castUsize n) with
            | some x => some (.ok x g2)
            | none => some (.err (.InvalidArgs args))
        | some (.err e) => some (.err e)
        | some .panicked => some .panicked
        | none => none
    | some (.err e) => some (.err e)
    | some .panicked => some .panicked
    | none => none
  | _ => some (.err (.InvalidArgs args))

/-- `is_atom` from `src/buildin.rs`, verbatim:
`Ok(ast::bool(matches!(exp, Exp::List(_))))`. -/
def is_atom (ev : Ev) (args : List Exp) (g : Nat) : Option (Res Exp) :=
  match parse_unary ev args g with
  | some (.ok v g1) =>
    some (.ok (.Bool (match v with | .List _ => true | _ => false)) g1)
  | some (.err e) => some (.err e)
  | some .panicked => some .panicked
  | none => none

/-- `print` from `src/buildin.rs`; the single write to standard output is not
modelled, only the returned unit value. -/
def print (ev : Ev) (args : List Exp) (g : Nat) : Option (Res Exp) :=
  match parse_unary ev args g with
  | some (.ok _ g1) => some (.ok .Nil g1)
  | some (.err e) => some (.err e)
  | some .panicked => some .panicked
  | none => none

/-- `println` from `src/buildin.rs`; as for `print`. -/
def println (ev : Ev) (args : List Exp) (g : Nat) : Option (Res Exp) :=
  match parse_unary ev args g with
  | some (.ok _ g1) => some (.ok .Nil g1)
  | some (.err e) => some (.err e)
  | some .panicked => some .panicked
  | none => none

/-- `string_append` from `src/buildin.rs`. -/
def string_append (ev : Ev) (args : List Exp) (g : Nat) : Option (Res Exp) :=
  match parse_binary ev args g with
  | some (.ok (lhs, rhs) g1) =>
    match as_string lhs, as_string rhs with
    | some s, some t => some (.ok (.String (s ++ t)) g1)
    | _, _ => some (.err (.InvalidArgs args))
  | some (.err e) => some (.err e)
  | some .panicked => some .panicked
  | none => none

/-- `string_head` from `src/buildin.rs` (`s.chars().take(1).collect()`). -/
def string_head (ev : Ev) (args : List Exp) (g : Nat) : Option (Res Exp) :=
  match parse_unary ev args g with
  | some (.ok v g1) =>
    match as_string v with
    | some s => some (.ok (.String (String.mk (s.data.take 1))) g1)
    | none => some (.err (.InvalidArgs args))
  | some (.err e) => some (.err e)
  | some .panicked => some .panicked
  | none => none

/-- `string_tail` from `src/buildin.rs` (`s.chars().skip(1).collect()`). -/
def string_tail (ev : Ev) (args : List Exp) (g : Nat) : Option (Res Exp) :=
  match parse_unary ev args g with
  | some (.ok v g1) =>
    match as_string v with
    | some s => some (.ok (.String (String.mk (s.data.drop 1))) g1)
    | none => some (.err (.InvalidArgs args))
  | some (.err e) => some (.err e)
  | some .panicked => some .panicked
  | none => none

/-- `string_init` from `src/buildin.rs`
(`s.chars().take(s.len() - 1).collect()`): `s.len()` is the UTF-8 byte
length, and the `usize` subtraction `s.len() - 1` underflows — i.e. panics —
when `s` is the empty string. -/
def string_init (ev : Ev) (args : List Exp) (g : Nat) : Option (Res Exp) :=
  match parse_unary ev args g with
  | some (.ok v g1) =>
    match as_string v with
    | some s =>
      if s.utf8ByteSize = 0 then some .panicked
      else some (.ok (.String (String.mk (s.data.take (s.utf8ByteSize - 1)))) g1)
    | none => some (.err (.InvalidArgs args))
  | some (.err e) => some (.err e)
  | some .panicked => some .panicked
  | none => none

/-- `string_last` from `src/buildin.rs` (`s.chars().rev().take(1).collect()`). -/
def string_last (ev : Ev) (args : List Exp) (g : Nat) : Option (Res Exp) :=
  match parse_unary ev args g with
  | some (.ok v g1) =>
    match as_string v with
    | some s => some (.ok (.String (String.mk (s.data.reverse.take 1))) g1)
    | none => some (.err (.InvalidArgs args))
  | some (.err e) => some (.err e)
  | some .panicked => some .panicked
  | none => none

/-- `symbol_to_string` from `src/buildin.rs`. -/
def symbol_to_string (ev : Ev) (args : List Exp) (g : Nat) : Option (Res Exp) :=
  match parse_unary ev args g with
  | some (.ok v g1) =>
    match as_symbol v with
    | some s => some (.ok (.String s) g1)
    | none => some (.err (.InvalidArgs args))
  | some (.err e) => some (.err e)
  | some .panicked => some .panicked
  | none => none

/-- Dispatch from a `Native` tag to the embedded implementation: the model of
calling through the function pointer stored in `Exp::BuildIn`.  `n` is the
evaluator fuel (used only by `eq`/`ne` for the structural comparison). -/
def runNative (ev : Ev) (n : Nat) : Native → List Exp → Nat → Option (Res Exp)
  | .add => add ev
  | .sub => sub ev
  | .mul => mul ev
  | .div => div ev
  | .eq => eq ev n
  | .ne => ne ev n
  | .cons => cons ev
  | .list => list ev
  | .first => first ev
  | .second => second ev
  | .third => third ev
  | .nth => nth ev
  | .is_atom => is_atom ev
  | .print => print ev
  | .println => println ev
  | .string_append => string_append ev
  | .string_head => string_head ev
  | .string_tail => string_tail ev
  | .string_init => string_init ev
  | .string_last => string_last ev
  | .symbol_to_string => symbol_to_string ev

/-- Modelled from the spec: fresh names drawn from the process-wide counter
use a reserved prefix that cannot collide with user-written identifiers. -/
def genName (g : Nat) : String := "#gen" ++ toString g

/-- Lifts a fallible free-occurrence test to lists. -/
def occursList (f : Exp → Option Bool) : List Exp → Option Bool
  | [] => some false
  | x :: xs =>
    match f x with
    | some true => some true
    | some false => occursList f xs
    | none => none

/-- Lifts a fallible free-occurrence test to clause lists. -/
def occursClauses (f : Exp → Option Bool) : List (Exp × Exp) → Option Bool
  | [] => some false
  | c :: cs =>
    match f c.1 with
    | some true => some true
    | some false =>
      match f c.2 with
      | some true => some true
      | some false => occursClauses f cs
      | none => none
    | none => none

/-- Modelled from the spec: whether `x` occurs free in an expression
(binders `Lambda`/`Let` shadow their parameter).  Fuelled. -/
def occursFree : Nat → String → Exp → Option Bool
  | 0, _, _ => none
  | n + 1, x, e =>
    match e with
    | .Nil | .Bool _ | .Integer _ | .String _ | .BuildIn _ => some false
    | .Symbol s => some (s == x)
    | .Lambda p b => if p = x then some false else occursFree n x b
    | .Apply f a =>
      match occursFree n x f with
      | some true => some true
      | some false => occursFree n x a
      | none => none
    | .List xs => occursList (occursFree n x) xs
    | .If c t e2 =>
      match occursFree n x c with
      | some true => some true
      | some false =>
        match occursFree n x t with
        | some true => some true
        | some false => occursFree n x e2
        | none => none
      | none => none
    | .Quote q => occursFree n x q
    | .Let p v b =>
      match occursFree n x v with
      | some true => some true
      | some false => if p = x then some false else occursFree n x b
      | none => none
    | .Case s cls =>
      match occursFree n x s with
      | some true => some true
      | some false => occursClauses (occursFree n x) cls
      | none => none

/-- Lifts a fallible substitution to lists, threading the name counter. -/
def substList (f : Exp → Nat → Option (Exp × Nat)) :
    List Exp → Nat → Option (List Exp × Nat)
  | [], g => some ([], g)
  | x :: xs, g =>
    match f x g with
    | some (x2, g1) =>
      match substList f xs g1 with
      | some (xs2, g2) => some (x2 :: xs2, g2)
      | none => none
    | none => none

/-- Lifts a fallible substitution to clause lists. -/
def substClauses (f : Exp → Nat → Option (Exp × Nat)) :
    List (Exp × Exp) → Nat → Option (List (Exp × Exp) × Nat)
  | [], g => some ([], g)
  | c :: cs, g =>
    match f c.1 g with
    | some (p2, g1) =>
      match f c.2 g1 with
      | some (r2, g2) =>
        match substClauses f cs g2 with
        | some (cs2, g3) => some ((p2, r2) :: cs2, g3)
        | none => none
      | none => none
    | none => none

/-- Modelled from the spec: capture-avoiding substitution of `value` for the
free occurrences of `x`.  A binder equal to `x` shadows; a binder that occurs
free in `value` is first renamed to a fresh name from the counter.  Fuelled:
`none` is fuel exhaustion, never a program behaviour. -/
def subst : Nat → Exp → String → Exp → Nat → Option (Exp × Nat)
  | 0, _, _, _, _ => none
  | n + 1, e, x, value, g =>
    match e with
    | .Nil | .Bool _ | .Integer _ | .String _ | .BuildIn _ => some (e, g)
    | .Symbol s => some (if s = x then value else e, g)
    | .Lambda p b =>
      if p = x then some (.Lambda p b, g)
      else
        match occursFree n p value with
        | none => none
        | some true =>
          let p2 := genName g
          match subst n b p (.Symbol p2) (g + 1) with
          | some (b1, g1) =>
            match subst n b1 x value g1 with
            | some (b2, g2) => some (.Lambda p2 b2, g2)
            | none => none
          | none => none
        | some false =>
          match subst n b x value g with
          | some (b1, g1) => some (.Lambda p b1, g1)
          | none => none
    | .Apply f a =>
      match subst n f x value g with
      | some (f1, g1) =>
        match subst n a x value g1 with
        | some (a1, g2) => some (.Apply f1 a1, g2)
        | none => none
      | none => none
    | .List xs =>
      match substList (fun e2 g2 => subst n e2 x value g2) xs g with
      | some (xs1, g1) => some (.List xs1, g1)
      | none => none
    | .If c t e2 =>
      match subst n c x value g with
      | some (c1, g1) =>
        match subst n t x value g1 with
        | some (t1, g2) =>
          match subst n e2 x value g2 with
          | some (e3, g3) => some (.If c1 t1 e3, g3)
          | none => none
        | none => none
      | none => none
    | .Quote q =>
      match subst n q x value g with
      | some (q1, g1) => some (.Quote q1, g1)
      | none => none
    | .Let p v b =>
      match subst n v x value g with
      | some (v1, g1) =>
        if p = x then some (.Let p v1 b, g1)
        else
          match occursFree n p value with
          | none => none
          | some true =>
            let p2 := genName g1
            match subst n b p (.Symbol p2) (g1 + 1) with
            | some (b1, g2) =>
              match subst n b1 x value g2 with
              | some (b2, g3) => some (.Let p2 v1 b2, g3)
              | none => none
            | none => none
          | some false =>
            match subst n b x value g1 with
            | some (b1, g2) => some (.Let p v1 b1, g2)
            | none => none
      | none => none
    | .Case s cls =>
      match subst n s x value g with
      | some (s1, g1) =>
        match substClauses (fun e2 g2 => subst n e2 x value g2) cls g1 with
        | some (cls1, g2) => some (.Case s1 cls1, g2)
        | none => none
      | none => none

/-- Modelled from the spec: first-match clause scan of the `Case` construct.
Each pattern is evaluated as a literal and compared structurally with the
scrutinee value. -/
def evalCase (ev : Ev) (n : Nat) (v : Exp) : List (Exp × Exp) → Nat → Option (Res Exp)
  | [], _ => some (.err (.NonExhaustiveMatch v))
  | (pat, res) :: rest, g =>
    match ev pat g with
    | some (.ok pv g1) =>
      match beqF n v pv with
      | some true => ev res g1
      | some false => evalCase ev n v rest g1
      | none => none
    | some (.err e) => some (.err e)
    | some .panicked => some .panicked
    | none => none

/-- Modelled from the spec: the evaluator
`evaluate(expression, definitions) -> Result<Expression, EvalError>`
(`eval.rs` is not among the provided sources).  Literals, abstractions and
bare native references reduce to themselves; names are looked up in the
definition table; application evaluates the function, then the argument, then
the substituted body; a list form whose head reduces to a native invokes it on
the raw remaining elements (the native evaluates them itself, as the
signatures in `src/buildin.rs` require), a head reducing to an abstraction is
applied to the remaining elements in curried left-to-right order, and any
other list is the eager list literal.  Fuelled. -/
def eval : Nat → Exp → Module' → Nat → Option (Res Exp)
  | 0, _, _, _ => none
  | n + 1, e, m, g =>
    match e with
    | .Nil | .Bool _ | .Integer _ | .String _ | .Lambda _ _ | .BuildIn _ =>
      some (.ok e g)
    | .Symbol s =>
      match m.lookup s with
      | some d => some (.ok d g)
      | none => some (.err (.UnboundName s))
    | .Quote inner => some (.ok inner g)
    | .Apply f a =>
      match eval n f m g with
      | some (.ok fv g1) =>
        match fv with
        | .Lambda p body =>
          match eval n a m g1 with
          | some (.ok v g2) =>
            match subst n body p v g2 with
            | some (body1, g3) => eval n body1 m g3
            | none => none
          | some (.err e2) => some (.err e2)
          | some .panicked => some .panicked
          | none => none
        | .BuildIn bf => runNative (fun e2 g2 => eval n e2 m g2) n bf [a] g1
        | other => some (.err (.NotApplicable other))
      | some (.err e2) => some (.err e2)
      | some .panicked => some .panicked
      | none => none
    | .If c t e2 =>
      match eval n c m g with
      | some (.ok (.Bool true) g1) => eval n t m g1
      | some (.ok (.Bool false) g1) => eval n e2 m g1
      | some (.ok v _) => some (.err (.TypeMismatch v))
      | some (.err e3) => some (.err e3)
      | some .panicked => some .panicked
      | none => none
    | .Let p ve body =>
      match eval n ve m g with
      | some (.ok v g1) =>
        match subst n body p v g1 with
        | some (body1, g2) => eval n body1 m g2
        | none => none
      | some (.err e2) => some (.err e2)
      | some .panicked => some .panicked
      | none => none
    | .Case scrut clauses =>
      match eval n scrut m g with
      | some (.ok v g1) => evalCase (fun e2 g2 => eval n e2 m g2) n v clauses g1
      | some (.err e2) => some (.err e2)
      | some .panicked => some .panicked
      | none => none
    | .List [] => some (.ok (.List []) g)
    | .List (h :: t) =>
      match eval n h m g with
      | some (.ok hv g1) =>
        match hv with
        | .BuildIn bf => runNative (fun e2 g2 => eval n e2 m g2) n bf t g1
        | .Lambda _ _ => eval n (t.foldl .Apply hv) m g1
        | _ =>
          match evalArgs (fun e2 g2 => eval n e2 m g2) t g1 with
          | some (.ok vs g2) => some (.ok (.List (hv :: vs)) g2)
          | some (.err e2) => some (.err e2)
          | some .panicked => some .panicked
          | none => none
      | some (.err e2) => some (.err e2)
      | some .panicked => some .panicked
      | none => none

/-- `insert_binary_curry_op` from `src/buildin.rs`: registers a binary native
under `func_name` as nested single-parameter lambdas whose body is the list
form `(#buildin x y)`. -/
def insert_binary_curry_op (func : Native) (func_name : String) (m : Module') : Module' :=
  { m with defines := m.defines ++
      [(func_name,
        Exp.Lambda "x" (.Lambda "y"
          (.List [.BuildIn func, .Symbol "x", .Symbol "y"])))] }

/-- `insert_buildin` from `src/buildin.rs`: registers a native as a bare
`BuildIn` value. -/
def insert_buildin (func : Native) (func_name : String) (m : Module') : Module' :=
  { m with defines := m.defines ++ [(func_name, Exp.BuildIn func)] }

/-- `default_module` from `src/buildin.rs`, with the registrations in source
order. -/
def default_module : Module' :=
  insert_buildin .symbol_to_string "symbol->string"
    (insert_buildin .string_last "string-last"
      (insert_buildin .string_init "string-init"
        (insert_buildin .string_tail "string-tail"
          (insert_buildin .string_head "string-head"
            (insert_binary_curry_op .string_append "string-append"
              (insert_buildin .println "println"
                (insert_buildin .print "print"
                  (insert_binary_curry_op .nth "nth"
                    (insert_buildin .third "third"
                      (insert_buildin .second "second"
                        (insert_buildin .first "first"
                          (insert_buildin .is_atom "atom?"
                            (insert_buildin .list "list"
                              (insert_binary_curry_op .cons "cons"
                                (insert_binary_curry_op .ne "/="
                                  (insert_binary_curry_op .eq "=="
                                    (insert_binary_curry_op .div "/"
                                      (insert_binary_curry_op .mul "*"
                                        (insert_binary_curry_op .sub "-"
                                          (insert_binary_curry_op .add "+"
                                            (Module'.mk "##default##" [])))))))))))))))))))))

/-- Self-evaluating atomic values: the fully reduced values that are neither
lists nor require lookup.  Used to express "evaluated argument" in the
claims. -/
def isAtomicB : Exp → Bool
  | .Nil | .Bool _ | .Integer _ | .String _ | .BuildIn _ => true
  | _ => false

/-- Propositional form of `isAtomicB`. -/
def AtomicVal (e : Exp) : Prop := isAtomicB e = true

/-- Characterises a call to a native from the standard catalog that has the
wrong number of arguments, or an argument (of any shape — list, abstraction,
atom, ...) of the wrong type for that native, "wrong type" being exactly the
source's own validation: the relevant
`as_integer`/`as_list`/`as_string`/`as_symbol` accessor returning `none` on
the value.  Natives without a type constraint only have arity failures;
`list` is variadic and has neither. -/
def wrongCall : Native → List Exp → Prop
  | .add, args | .sub, args | .mul, args | .div, args =>
    args.length ≠ 2 ∨
      (∃ a b, args = [a, b] ∧ (as_integer a = none ∨ as_integer b = none))
  | .eq, args | .ne, args | .cons, args => args.length ≠ 2
  | .list, _ => False
  | .first, args | .second, args | .third, args =>
    args.length ≠ 1 ∨ (∃ a, args = [a] ∧ as_list a = none)
  | .nth, args =>
    args.length ≠ 2 ∨
      (∃ a b, args = [a, b] ∧ (as_integer a = none ∨ as_list b = none))
  | .is_atom, args | .print, args | .println, args => args.length ≠ 1
  | .string_append, args =>
    args.length ≠ 2 ∨
      (∃ a b, args = [a, b] ∧ (as_string a = none ∨ as_string b = none))
  | .string_head, args | .string_tail, args | .string_init, args
  | .string_last, args =>
    args.length ≠ 1 ∨ (∃ a, args = [a] ∧ as_string a = none)
  | .symbol_to_string, args =>
    args.length ≠ 1 ∨ (∃ a, args = [a] ∧ as_symbol a = none)

/-- Sequential left-to-right evaluation of a list of expressions by an
evaluator closure `ev`, succeeding on every element: the independent
characterisation against which the `list` native's traversal is proved. -/
inductive SeqEval (ev : Ev) : List Exp → Nat → List Exp → Nat → Prop where
  | nil (g : Nat) : SeqEval ev [] g [] g
  | cons (e : Exp) (t : List Exp) (v : Exp) (vs : List Exp) (g g1 g2 : Nat)
      (h1 : ev e g = some (.ok v g1)) (h2 : SeqEval ev t g1 vs g2) :
      SeqEval ev (e :: t) g (v :: vs) g2

theorem eval_atomic (n : Nat) (m : Module') (g : Nat) (e : Exp) (h : AtomicVal e) :
    eval (n + 1) e m g = some (.ok e g) := by
  cases e <;> simp_all [AtomicVal, isAtomicB, eval]

theorem subst_atomic (n : Nat) (e : Exp) (x : String) (v : Exp) (g : Nat)
    (h : AtomicVal e) : subst (n + 1) e x v g = some (e, g) := by
  cases e <;> simp_all [AtomicVal, isAtomicB, subst]

theorem occursFree_atomic (n : Nat) (x : String) (v : Exp) (h : AtomicVal v) :
    occursFree (n + 1) x v = some false := by
  cases v <;> simp_all [AtomicVal, isAtomicB, occursFree]

theorem parse_unary_arity (ev : Ev) (args : List Exp) (g : Nat)
    (h : args.length ≠ 1) : parse_unary ev args g = some (.err (.InvalidArgs args)) := by
  match args with
  | [] => rfl
  | [a] => simp at h
  | a :: b :: t => rfl

theorem parse_binary_arity (ev : Ev) (args : List Exp) (g : Nat)
    (h : args.length ≠ 2) : parse_binary ev args g = some (.err (.InvalidArgs args)) := by
  match args with
  | [] => rfl
  | [a] => rfl
  | [a, b] => simp at h
  | a :: b :: c :: t => rfl

theorem parse_binary_integer_arity (ev : Ev) (args : List Exp) (g : Nat)
    (h : args.length ≠ 2) :
    parse_binary_integer ev args g = some (.err (.InvalidArgs args)) := by
  match args with
  | [] => rfl
  | [a] => rfl
  | [a, b] => simp at h
  | a :: b :: c :: t => rfl

theorem beqListF_correct (f : Exp → Exp → Option Bool)
    (hf : ∀ a b r, f a b = some r → (r = true ↔ a = b)) :
    ∀ xs ys r, beqListF f xs ys = some r → (r = true ↔ xs = ys) := by
  intro xs
  induction xs with
  | nil =>
    intro ys r h
    cases ys <;> simp_all [beqListF]
  | cons x xs ih =>
    intro ys r h
    cases ys with
    | nil => simp_all [beqListF]
    | cons y ys =>
      simp only [beqListF] at h
      rcases he : f x y with _ | b
      · rw [he] at h; cases h
      · rw [he] at h
        cases b with
        | false =>
          simp at h
          subst h
          have := hf x y false he
          simp_all
        | true =>
          have hx : x = y := (hf x y true he).mp rfl
          have := ih ys r h
          simp_all

theorem beqClausesF_correct (f : Exp → Exp → Option Bool)
    (hf : ∀ a b r, f a b = some r → (r = true ↔ a = b)) :
    ∀ cs ds r, beqClausesF f cs ds = some r → (r = true ↔ cs = ds) := by
  intro cs
  induction cs with
  | nil =>
    intro ds r h
    cases ds <;> simp_all [beqClausesF]
  | cons c cs ih =>
    intro ds r h
    cases ds with
    | nil => simp_all [beqClausesF]
    | cons d ds =>
      simp only [beqClausesF] at h
      rcases he1 : f c.1 d.1 with _ | b1
      · rw [he1] at h; cases h
      · rw [he1] at h
        cases b1 with
        | false =>
          simp at h
          subst h
          have h1 := hf c.1 d.1 false he1
          constructor
          · intro hc; cases hc
          · intro hc
            injection hc with hc1 hc2
            subst hc1
            simp_all
        | true =>
          have h1 : c.1 = d.1 := (hf c.1 d.1 true he1).mp rfl
          rcases he2 : f c.2 d.2 with _ | b2
          · rw [he2] at h; cases h
          · rw [he2] at h
            cases b2 with
            | false =>
              simp at h
              subst h
              have h2 := hf c.2 d.2 false he2
              constructor
              · intro hc; cases hc
              · intro hc
                injection hc with hc1 hc2
                subst hc1
                simp_all
            | true =>
              have h2 : c.2 = d.2 := (hf c.2 d.2 true he2).mp rfl
              have := ih ds r h
              constructor
              · intro hr
                have : cs = ds := by simp_all
                simp_all [Prod.ext_iff]
              · intro hc
                injection hc with hc1 hc2
                simp_all

set_option maxHeartbeats 2000000 in
theorem beqF_correct : ∀ n a b r, beqF n a b = some r → (r = true ↔ a = b) := by
  intro n
  induction n with
  | zero => intro a b r h; simp [beqF] at h
  | succ n ih =>
    intro a b r h
    cases a
    case Nil => cases b <;> simp_all [beqF]
    case Bool x =>
      cases b
      case Bool y =>
        simp only [beqF, Option.some.injEq] at h
        subst h
        simp
      all_goals simp_all [beqF]
    case Integer x =>
      cases b
      case Integer y =>
        simp only [beqF, Option.some.injEq] at h
        subst h
        simp
      all_goals simp_all [beqF]
    case String x =>
      cases b
      case String y =>
        simp only [beqF, Option.some.injEq] at h
        subst h
        simp
      all_goals simp_all [beqF]
    case Symbol x =>
      cases b
      case Symbol y =>
        simp only [beqF, Option.some.injEq] at h
        subst h
        simp
      all_goals simp_all [beqF]
    case BuildIn x =>
      cases b
      case BuildIn y =>
        simp only [beqF, Option.some.injEq] at h
        subst h
        simp
      all_goals simp_all [beqF]
    case Lambda p x =>
      cases b
      case Lambda q y =>
        simp only [beqF] at h
        by_cases hpq : p = q
        · rw [if_pos hpq] at h
          have := ih x y r h
          simp_all
        · rw [if_neg hpq] at h
          simp at h
          simp_all
      all_goals simp_all [beqF]
    case Apply f1 a1 =>
      cases b
      case Apply f2 a2 =>
        simp only [beqF] at h
        rcases h1 : beqF n f1 f2 with _ | b1
        · rw [h1] at h; simp at h
        · cases b1
          · rw [h1] at h
            simp at h
            have := ih f1 f2 false h1
            simp_all
          · rw [h1] at h
            simp at h
            have hf := (ih f1 f2 true h1).mp rfl
            have := ih a1 a2 r h
            simp_all
      all_goals simp_all [beqF]
    case Quote x =>
      cases b
      case Quote y =>
        simp only [beqF] at h
        have := ih x y r h
        simp_all
      all_goals simp_all [beqF]
    case List xs =>
      cases b
      case List ys =>
        simp only [beqF] at h
        have := beqListF_correct (beqF n) ih xs ys r h
        simp_all
      all_goals simp_all [beqF]
    case If c1 t1 e1 =>
      cases b
      case If c2 t2 e2 =>
        simp only [beqF] at h
        rcases h1 : beqF n c1 c2 with _ | b1
        · rw [h1] at h; simp at h
        · cases b1
          · rw [h1] at h
            simp at h
            have := ih c1 c2 false h1
            simp_all
          · rw [h1] at h
            simp only [] at h
            have hc := (ih c1 c2 true h1).mp rfl
            rcases h2 : beqF n t1 t2 with _ | b2
            · rw [h2] at h; simp at h
            · cases b2
              · rw [h2] at h
                simp at h
                have := ih t1 t2 false h2
                simp_all
              · rw [h2] at h
                simp only [] at h
                have ht := (ih t1 t2 true h2).mp rfl
                have := ih e1 e2 r h
                simp_all
      all_goals simp_all [beqF]
    case Let p v1 b1 =>
      cases b
      case Let q v2 b2 =>
        simp only [beqF] at h
        by_cases hpq : p = q
        · rw [if_pos hpq] at h
          rcases h1 : beqF n v1 v2 with _ | bv
          · rw [h1] at h; simp at h
          · cases bv
            · rw [h1] at h
              simp at h
              have := ih v1 v2 false h1
              simp_all
            · rw [h1] at h
              simp only [] at h
              have hv := (ih v1 v2 true h1).mp rfl
              have := ih b1 b2 r h
              simp_all
        · rw [if_neg hpq] at h
          simp at h
          simp_all
      all_goals simp_all [beqF]
    case Case s1 cl1 =>
      cases b
      case Case s2 cl2 =>
        simp only [beqF] at h
        rcases h1 : beqF n s1 s2 with _ | bs
        · rw [h1] at h; simp at h
        · cases bs
          · rw [h1] at h
            simp at h
            have := ih s1 s2 false h1
            simp_all
          · rw [h1] at h
            simp only [] at h
            have hs := (ih s1 s2 true h1).mp rfl
            have := beqClausesF_correct (beqF n) ih cl1 cl2 r h
            simp_all
      all_goals simp_all [beqF]

/-- Claim C3: the spec (and the repository's own `test_is_atom`) require
`atom?` to return `Boolean(true)` on atoms and `Boolean(false)` on lists, but
the code returns `ast::bool(matches!(exp, Exp::List(_)))`, the exact inverse:
this theorem evaluates the code on the atom `Integer(1)` (yielding `false`)
and on the list value `(1 2)` (yielding `true`). -/
theorem c3_is_atom_inverted :
    eval 20 (.List [.Symbol "atom?", .Integer 1]) default_module 0
      = some (.ok (.Bool false) 0)
    ∧ eval 20 (.List [.Symbol "atom?", .Quote (.List [.Integer 1, .Integer 2])])
        default_module 0
      = some (.ok (.Bool true) 0) :=
  ⟨rfl, rfl⟩

/-- Claim C10: `string-head`, `string-tail` and `string-last` are total on
every string and return a string value, but `string-init` applied to the
empty string computes the `usize` subtraction `s.len() - 1` with
`s.len() = 0`, which underflows and panics instead of returning a `Result`:
this theorem evaluates the code at the failing input. -/
theorem c10_string_init_empty_panics :
    eval 20 (.List [.Symbol "string-init", .String ""]) default_module 0
      = some .panicked
    ∧ eval 20 (.List [.Symbol "string-head", .String ""]) default_module 0
      = some (.ok (.String "") 0)
    ∧ eval 20 (.List [.Symbol "string-tail", .String ""]) default_module 0
      = some (.ok (.String "") 0)
    ∧ eval 20 (.List [.Symbol "string-last", .String ""]) default_module 0
      = some (.ok (.String "") 0) :=
  ⟨rfl, rfl, rfl, rfl⟩

/-- Claim C5: on any pair of fully evaluated values, `==` returns the
`Boolean` of their structural equality and `/=` returns exactly its negation
(`beqF ... = some b` supplies the comparison result, and the final conjunct
identifies `b = true` with structural equality); concretely, comparing the
list `(1 2)` with the integer `2` gives `false` for `==` and `true` for
`/=`. -/
theorem c5_eq_ne_structural :
    (∀ (ev : Ev) (n : Nat) (e0 e1 v w : Exp) (b : Bool) (g g1 g2 : Nat),
      ev e0 g = some (.ok v g1) → ev e1 g1 = some (.ok w g2) →
      beqF n v w = some b →
      eq ev n [e0, e1] g = some (.ok (.Bool b) g2)
      ∧ ne ev n [e0, e1] g = some (.ok (.Bool !b) g2)
      ∧ (b = true ↔ v = w))
    ∧ eval 20 (.List [.Symbol "==", .Quote (.List [.Integer 1, .Integer 2]), .Integer 2])
        default_module 0 = some (.ok (.Bool false) 0)
    ∧ eval 20 (.List [.Symbol "/=", .Quote (.List [.Integer 1, .Integer 2]), .Integer 2])
        default_module 0 = some (.ok (.Bool true) 0) := by
  refine ⟨?_, rfl, rfl⟩
  intro ev n e0 e1 v w b g g1 g2 h0 h1 hb
  refine ⟨?_, ?_, beqF_correct n v w b hb⟩
  · simp [eq, parse_binary, h0, h1, hb]
  · simp [ne, parse_binary, h0, h1, hb]

/-- Witness for C5 at `ev := eval 3 · default_module ·`, comparing the value
`Integer(1)` with itself. -/
theorem c5_eq_ne_structural_witness :
    eq (fun e g => eval 3 e default_module g) 4 [.Integer 1, .Integer 1] 0
      = some (.ok (.Bool true) 0) :=
  (c5_eq_ne_structural.1 (fun e g => eval 3 e default_module g) 4
    (.Integer 1) (.Integer 1) (.Integer 1) (.Integer 1) true 0 0 0
    rfl rfl rfl).1

/-- Claim C9: on any pair of fully evaluated values, `cons` prepends the
first value when the second is a list and otherwise forms the two-element
list, and in both cases returns a list value (it never fails on evaluated
arguments of any type). -/
theorem c9_cons_total :
    ∀ (ev : Ev) (e0 e1 v w : Exp) (g g1 g2 : Nat),
      ev e0 g = some (.ok v g1) → ev e1 g1 = some (.ok w g2) →
      (∀ l, w = .List l → cons ev [e0, e1] g = some (.ok (.List (v :: l)) g2))
      ∧ (as_list w = none → cons ev [e0, e1] g = some (.ok (.List [v, w]) g2)) := by
  intro ev e0 e1 v w g g1 g2 h0 h1
  constructor
  · intro l hw
    subst hw
    simp [cons, parse_binary, h0, h1, as_list]
  · intro hw
    simp [cons, parse_binary, h0, h1, hw]

/-- Witness for C9: `cons` of `Integer(1)` onto the non-list `Integer(2)`. -/
theorem c9_cons_total_witness :
    cons (fun e g => eval 3 e default_module g) [.Integer 1, .Integer 2] 0
      = some (.ok (.List [.Integer 1, .Integer 2]) 0) :=
  (c9_cons_total (fun e g => eval 3 e default_module g)
    (.Integer 1) (.Integer 2) (.Integer 1) (.Integer 2) 0 0 0 rfl rfl).2 rfl

/-- Claim C8: on arguments evaluating to integers, `+`, `-`, `*` and `/`
return exactly the mathematical sum, difference, product and (non-zero
divisor) truncated quotient whenever that result lies in the `i64` range —
integer arithmetic is exact, with no rounding or wrapping in range. -/
theorem c8_arith_exact :
    ∀ (ev : Ev) (e0 e1 : Exp) (a b : Int) (g g1 g2 : Nat),
      ev e0 g = some (.ok (.Integer a) g1) →
      ev e1 g1 = some (.ok (.Integer b) g2) →
      (inI64 (a + b) → add ev [e0, e1] g = some (.ok (.Integer (a + b)) g2))
      ∧ (inI64 (a - b) → sub ev [e0, e1] g = some (.ok (.Integer (a - b)) g2))
      ∧ (inI64 (a * b) → mul ev [e0, e1] g = some (.ok (.Integer (a * b)) g2))
      ∧ (b ≠ 0 → inI64 (Int.tdiv a b) →
          div ev [e0, e1] g = some (.ok (.Integer (Int.tdiv a b)) g2)) := by
  intro ev e0 e1 a b g g1 g2 h0 h1
  refine ⟨?_, ?_, ?_, ?_⟩
  · intro h
    simp [add, parse_binary_integer, h0, h1, as_integer, checkedI64, h]
  · intro h
    simp [sub, parse_binary_integer, h0, h1, as_integer, checkedI64, h]
  · intro h
    simp [mul, parse_binary_integer, h0, h1, as_integer, checkedI64, h]
  · intro hb h
    simp [div, parse_binary_integer, h0, h1, as_integer, checkedI64, h, hb]

/-- Witness for C8: `1 + 2 = 3`. -/
theorem c8_arith_exact_witness :
    add (fun e g => eval 3 e default_module g) [.Integer 1, .Integer 2] 0
      = some (.ok (.Integer 3) 0) :=
  (c8_arith_exact (fun e g => eval 3 e default_module g)
    (.Integer 1) (.Integer 2) 1 2 0 0 0 rfl rfl).1 (by constructor <;> decide)

/-- Counterexample to C2 as stated: the divisor `-1` is a non-zero integer,
yet dividing `i64::MIN = -(2^63)` by it does not return the integer quotient
`2^63` — the quotient overflows the `i64` range and the division panics
("attempt to divide with overflow"). -/
theorem c2_division_counterexample :
    div (fun e g => eval 5 e default_module g)
        [.Integer (-(2 ^ 63)), .Integer (-1)] 0
      = some .panicked
    ∧ some (Res.panicked) ≠ some (Res.ok (Exp.Integer (2 ^ 63)) 0) :=
  ⟨rfl, by simp⟩

/-- Claim C2, amended: if both operands evaluate to integers and the divisor
is `0`, `div` fails with `DivideByZero` carrying the application of the two
original pre-evaluation operand expressions; if the divisor is non-zero and
the truncated quotient is representable as an `i64` (i.e. the pair is not
`(i64::MIN, -1)`), it returns that quotient (at `(i64::MIN, -1)` the
division overflows and panics, per the counterexample). -/
theorem c2_division_amended :
    ∀ (ev : Ev) (e0 e1 : Exp) (a b : Int) (g g1 g2 : Nat),
      ev e0 g = some (.ok (.Integer a) g1) →
      ev e1 g1 = some (.ok (.Integer b) g2) →
      (b = 0 → div ev [e0, e1] g
          = some (.err (.DivideByZero (.Apply e0 e1))))
      ∧ (b ≠ 0 → inI64 (Int.tdiv a b) →
          div ev [e0, e1] g = some (.ok (.Integer (Int.tdiv a b)) g2)) := by
  intro ev e0 e1 a b g g1 g2 h0 h1
  constructor
  · intro hb
    subst hb
    simp [div, parse_binary_integer, h0, h1, as_integer]
  · intro hb h
    simp [div, parse_binary_integer, h0, h1, as_integer, checkedI64, h, hb]

/-- Witness for the amended C2: `(/ 1 0)` fails with `DivideByZero` carrying
`Application(Integer(1), Integer(0))`. -/
theorem c2_division_amended_witness :
    div (fun e g => eval 3 e default_module g) [.Integer 1, .Integer 0] 0
      = some (.err (.DivideByZero (.Apply (.Integer 1) (.Integer 0)))) :=
  (c2_division_amended (fun e g => eval 3 e default_module g)
    (.Integer 1) (.Integer 0) 1 0 0 0 0 rfl rfl).1 rfl

/-- Claim C4: `nth(n, l)` returns the zero-based element `x` at index `n`
whenever `0 ≤ n` and `l.get? n.toNat = some x`, and fails with
`InvalidArgs` (the spec's ArityOrTypeMismatch) carrying the raw argument
list when `n` is negative or `n ≥ length l` (the side conditions record the
Rust invariants: `n` fits in an `i64` and a vector is no longer than
`isize::MAX`); `first`, `second` and `third` return the elements at indices
0, 1 and 2, and each fails with `InvalidArgs` (again carrying the raw
argument list) when the list is shorter than that index requires; concretely
`nth 5 (1 2 3 4 5 6 7) = 6`, `first`/`second` of `(1 2)` are `1`/`2`, and
`third` of `(1 2)` fails. -/
theorem c4_list_accessors :
    (∀ (ev : Ev) (nv : Int) (l : List Exp) (g g1 g2 : Nat),
      ev (.Integer nv) g = some (.ok (.Integer nv) g1) →
      ev (.Quote (.List l)) g1 = some (.ok (.List l) g2) →
      inI64 nv → l.length ≤ 2 ^ 63 - 1 →
      (∀ x, 0 ≤ nv → l.get? nv.toNat = some x →
        nth ev [.Integer nv, .Quote (.List l)] g = some (.ok x g2))
      ∧ ((nv < 0 ∨ (l.length : Int) ≤ nv) →
        nth ev [.Integer nv, .Quote (.List l)] g
          = some (.err (.InvalidArgs [.Integer nv, .Quote (.List l)]))))
    ∧ (∀ (ev : Ev) (l : List Exp) (g g1 : Nat),
      ev (.Quote (.List l)) g = some (.ok (.List l) g1) →
      (∀ x, l.get? 0 = some x →
        first ev [.Quote (.List l)] g = some (.ok x g1))
      ∧ (∀ x, l.get? 1 = some x →
        second ev [.Quote (.List l)] g = some (.ok x g1))
      ∧ (∀ x, l.get? 2 = some x →
        third ev [.Quote (.List l)] g = some (.ok x g1))
      ∧ (l.length ≤ 0 → first ev [.Quote (.List l)] g
          = some (.err (.InvalidArgs [.Quote (.List l)])))
      ∧ (l.length ≤ 1 → second ev [.Quote (.List l)] g
          = some (.err (.InvalidArgs [.Quote (.List l)])))
      ∧ (l.length ≤ 2 → third ev [.Quote (.List l)] g
          = some (.err (.InvalidArgs [.Quote (.List l)]))))
    ∧ eval 20 (.List [.Symbol "nth", .Integer 5, .Quote (.List [.Integer 1, .Integer 2,
        .Integer 3, .Integer 4, .Integer 5, .Integer 6, .Integer 7])]) default_module 0
      = some (.ok (.Integer 6) 0)
    ∧ eval 20 (.List [.Symbol "first", .Quote (.List [.Integer 1, .Integer 2])])
        default_module 0 = some (.ok (.Integer 1) 0)
    ∧ eval 20 (.List [.Symbol "second", .Quote (.List [.Integer 1, .Integer 2])])
        default_module 0 = some (.ok (.Integer 2) 0)
    ∧ eval 20 (.List [.Symbol "third", .Quote (.List [.Integer 1, .Integer 2])])
        default_module 0
      = some (.err (.InvalidArgs [.Quote (.List [.Integer 1, .Integer 2])])) := by
  refine ⟨?_, ?_, rfl, rfl, rfl, rfl⟩
  · intro ev nv l g g1 g2 h0 h1 hI hlen
    obtain ⟨hlo, hhi⟩ := hI
    constructor
    · intro x hnn hx
      have hc : castUsize nv = nv.toNat := by unfold castUsize; omega
      rw [List.get?_eq_getElem?] at hx
      simp [nth, h0, h1, as_integer, as_list, hc, hx]
    · intro hout
      have hc : l.length ≤ castUsize nv := by
        unfold castUsize
        rcases hout with h | h <;> omega
      have hnone : l.get? (castUsize nv) = none := List.get?_eq_none.mpr hc
      rw [List.get?_eq_getElem?] at hnone
      simp [nth, h0, h1, as_integer, as_list, hnone]
  · intro ev l g g1 h
    refine ⟨?_, ?_, ?_, ?_, ?_, ?_⟩
    · intro x hx
      rw [List.get?_eq_getElem?] at hx
      simp [first, parse_unary, h, as_list, hx]
    · intro x hx
      rw [List.get?_eq_getElem?] at hx
      simp [second, parse_unary, h, as_list, hx]
    · intro x hx
      rw [List.get?_eq_getElem?] at hx
      simp [third, parse_unary, h, as_list, hx]
    · intro hlen
      have hnone : l.get? 0 = none := List.get?_eq_none.mpr hlen
      rw [List.get?_eq_getElem?] at hnone
      simp [first, parse_unary, h, as_list, hnone]
    · intro hlen
      have hnone : l.get? 1 = none := List.get?_eq_none.mpr hlen
      rw [List.get?_eq_getElem?] at hnone
      simp [second, parse_unary, h, as_list, hnone]
    · intro hlen
      have hnone : l.get? 2 = none := List.get?_eq_none.mpr hlen
      rw [List.get?_eq_getElem?] at hnone
      simp [third, parse_unary, h, as_list, hnone]

/-- Witness for C4: `nth` with the negative index `-1` on the one-element
list `(7)` fails with `InvalidArgs` carrying the raw arguments. -/
theorem c4_list_accessors_witness :
    nth (fun e g => eval 3 e default_module g)
        [.Integer (-1), .Quote (.List [.Integer 7])] 0
      = some (.err (.InvalidArgs [.Integer (-1), .Quote (.List [.Integer 7])])) :=
  ((c4_list_accessors.1 (fun e g => eval 3 e default_module g) (-1) [.Integer 7] 0 0 0
    rfl rfl (by constructor <;> decide) (by decide)).2) (by left; decide)

theorem evalArgs_of_seq (ev : Ev) :
    ∀ (args : List Exp) (g : Nat) (vs : List Exp) (g2 : Nat),
      SeqEval ev args g vs g2 → evalArgs ev args g = some (.ok vs g2) := by
  intro args g vs g2 h
  induction h with
  | nil g => rfl
  | cons e t v vs g g1 g2 h1 h2 ih => simp [evalArgs, h1, ih]

/-- Claim C7: the `list` native evaluates its argument expressions left to
right and returns the list of their values (`SeqEval` is the sequential
left-to-right evaluation relation); if some argument fails after a prefix of
successes, the call returns exactly that first error, whatever expressions
follow it (they are never evaluated: the result does not depend on
`rest`). -/
theorem c7_list_left_to_right :
    (∀ (ev : Ev) (args : List Exp) (g : Nat) (vs : List Exp) (g2 : Nat),
      SeqEval ev args g vs g2 →
      list ev args g = some (.ok (.List vs) g2))
    ∧ (∀ (ev : Ev) (pre : List Exp) (g : Nat) (vs : List Exp) (g1 : Nat)
        (bad : Exp) (er : EvalError) (rest : List Exp),
      SeqEval ev pre g vs g1 → ev bad g1 = some (.err er) →
      list ev (pre ++ bad :: rest) g = some (.err er)) := by
  constructor
  · intro ev args g vs g2 h
    simp [list, evalArgs_of_seq ev args g vs g2 h]
  · intro ev pre g vs g1 bad er rest h
    induction h with
    | nil g =>
      intro hbad
      simp [list, evalArgs, hbad]
    | cons e t v vs g gm g2 h1 h2 ih =>
      intro hbad
      have ihx := ih hbad
      simp only [list] at ihx ⊢
      simp only [List.cons_append, evalArgs, h1]
      rcases hrec : evalArgs ev (t ++ bad :: rest) gm with _ | r
      · rw [hrec] at ihx
        simp at ihx
      · cases r <;> simp_all

theorem c7_list_left_to_right_witness :
    list (fun e g => eval 3 e default_module g)
        [.Integer 1, .Symbol "nope", .Integer 2] 0
      = some (.err (.UnboundName "nope")) :=
  c7_list_left_to_right.2 (fun e g => eval 3 e default_module g)
    [.Integer 1] 0 [.Integer 1] 0 (.Symbol "nope") (.UnboundName "nope") [.Integer 2]
    (SeqEval.cons (.Integer 1) [] (.Integer 1) [] 0 0 0 rfl (SeqEval.nil 0)) rfl

theorem parse_binary_integer_wrong (ev : Ev) (args : List Exp) (g : Nat)
    (hev : ∀ a g2, a ∈ args → ev a g2 = some (.ok a g2))
    (hw : args.length ≠ 2 ∨ ∃ a b, args = [a, b] ∧
      (as_integer a = none ∨ as_integer b = none)) :
    parse_binary_integer ev args g = some (.err (.InvalidArgs args)) := by
  rcases hw with h | ⟨a, b, rfl, hty⟩
  · exact parse_binary_integer_arity ev args g h
  · have ha := hev a g (by simp)
    have hb := hev b g (by simp)
    rcases hty with h | h
    · rcases h2 : as_integer b with _ | j <;>
        simp [parse_binary_integer, ha, hb, h, h2]
    · rcases h2 : as_integer a with _ | i <;>
        simp [parse_binary_integer, ha, hb, h, h2]

theorem nth_arity (ev : Ev) (args : List Exp) (g : Nat) (h : args.length ≠ 2) :
    nth ev args g = some (.err (.InvalidArgs args)) := by
  match args with
  | [] => rfl
  | [a] => rfl
  | [a, b] => simp at h
  | a :: b :: c :: t => rfl

/-- Claim C6: every native from the standard catalog, when called with the
wrong number of arguments, or with a fully evaluated argument of any shape
(list, abstraction, atom, ...) of the wrong type for that native (as
`wrongCall` characterises through the source's own `as_*` validation), fails
with `InvalidArgs` — the spec's ArityOrTypeMismatch — whose payload is
exactly the raw argument list, and with no other error kind (the conclusion
is an equality, so no other outcome occurs).  The hypothesis on `ev` states
that the given arguments are already fully evaluated: evaluating each one
returns it unchanged. -/
theorem c6_invalid_args :
    ∀ (ev : Ev) (n : Nat) (f : Native) (args : List Exp) (g : Nat),
      (∀ a g2, a ∈ args → ev a g2 = some (.ok a g2)) →
      wrongCall f args →
      runNative ev n f args g = some (.err (.InvalidArgs args)) := by
  intro ev n f args g hev hw
  cases f
  case add => simp [runNative, add, parse_binary_integer_wrong ev args g hev hw]
  case sub => simp [runNative, sub, parse_binary_integer_wrong ev args g hev hw]
  case mul => simp [runNative, mul, parse_binary_integer_wrong ev args g hev hw]
  case div => simp [runNative, div, parse_binary_integer_wrong ev args g hev hw]
  case eq => simp [runNative, eq, parse_binary_arity ev args g hw]
  case ne => simp [runNative, ne, parse_binary_arity ev args g hw]
  case cons => simp [runNative, cons, parse_binary_arity ev args g hw]
  case list => exact hw.elim
  case first =>
    rcases hw with h | ⟨a, rfl, hna⟩
    · simp [runNative, first, parse_unary_arity ev args g h]
    · have ha := hev a g (by simp)
      simp [runNative, first, parse_unary, ha, hna]
  case second =>
    rcases hw with h | ⟨a, rfl, hna⟩
    · simp [runNative, second, parse_unary_arity ev args g h]
    · have ha := hev a g (by simp)
      simp [runNative, second, parse_unary, ha, hna]
  case third =>
    rcases hw with h | ⟨a, rfl, hna⟩
    · simp [runNative, third, parse_unary_arity ev args g h]
    · have ha := hev a g (by simp)
      simp [runNative, third, parse_unary, ha, hna]
  case nth =>
    rcases hw with h | ⟨a, b, rfl, hty⟩
    · simp [runNative, nth_arity ev args g h]
    · have ha := hev a g (by simp)
      have hb := hev b g (by simp)
      rcases hty with h | h
      · simp [runNative, nth, ha, h]
      · rcases h2 : as_integer a with _ | i
        · simp [runNative, nth, ha, h2]
        · simp [runNative, nth, ha, hb, h2, h]
  case is_atom => simp [runNative, is_atom, parse_unary_arity ev args g hw]
  case print => simp [runNative, print, parse_unary_arity ev args g hw]
  case println => simp [runNative, println, parse_unary_arity ev args g hw]
  case string_append =>
    rcases hw with h | ⟨a, b, rfl, hty⟩
    · simp [runNative, string_append, parse_binary_arity ev args g h]
    · have ha := hev a g (by simp)
      have hb := hev b g (by simp)
      rcases hty with h | h
      · rcases h2 : as_string b with _ | t <;>
          simp [runNative, string_append, parse_binary, ha, hb, h, h2]
      · rcases h2 : as_string a with _ | s <;>
          simp [runNative, string_append, parse_binary, ha, hb, h, h2]
  case string_head =>
    rcases hw with h | ⟨a, rfl, hs⟩
    · simp [runNative, string_head, parse_unary_arity ev args g h]
    · have ha := hev a g (by simp)
      simp [runNative, string_head, parse_unary, ha, hs]
  case string_tail =>
    rcases hw with h | ⟨a, rfl, hs⟩
    · simp [runNative, string_tail, parse_unary_arity ev args g h]
    · have ha := hev a g (by simp)
      simp [runNative, string_tail, parse_unary, ha, hs]
  case string_init =>
    rcases hw with h | ⟨a, rfl, hs⟩
    · simp [runNative, string_init, parse_unary_arity ev args g h]
    · have ha := hev a g (by simp)
      simp [runNative, string_init, parse_unary, ha, hs]
  case string_last =>
    rcases hw with h | ⟨a, rfl, hs⟩
    · simp [runNative, string_last, parse_unary_arity ev args g h]
    · have ha := hev a g (by simp)
      simp [runNative, string_last, parse_unary, ha, hs]
  case symbol_to_string =>
    rcases hw with h | ⟨a, rfl, hs⟩
    · simp [runNative, symbol_to_string, parse_unary_arity ev args g h]
    · have ha := hev a g (by simp)
      simp [runNative, symbol_to_string, parse_unary, ha, hs]

/-- Witness for C6: `+` applied to the evaluated list value `(1 2)` and the
integer `1` — a non-atomic, wrong-typed first argument — fails with
`InvalidArgs` carrying the raw argument list. -/
theorem c6_invalid_args_witness :
    runNative (fun e g => eval 3 e default_module g) 3 .add
        [.List [.Integer 1, .Integer 2], .Integer 1] 0
      = some (.err (.InvalidArgs [.List [.Integer 1, .Integer 2], .Integer 1])) :=
  c6_invalid_args (fun e g => eval 3 e default_module g) 3 .add
    [.List [.Integer 1, .Integer 2], .Integer 1] 0
    (by
      intro a g2 ha
      simp only [List.mem_cons, List.not_mem_nil, or_false] at ha
      rcases ha with rfl | rfl <;> rfl)
    (Or.inr ⟨.List [.Integer 1, .Integer 2], .Integer 1, rfl, Or.inl rfl⟩)

theorem eval_symbol_unfold (n : Nat) (m : Module') (g : Nat) (s : String) :
    eval (n + 1) (.Symbol s) m g
      = match m.lookup s with
        | some d => some (.ok d g)
        | none => some (.err (.UnboundName s)) := rfl

theorem eval_lambda_unfold (n : Nat) (m : Module') (g : Nat) (p : String) (body : Exp) :
    eval (n + 1) (.Lambda p body) m g = some (.ok (.Lambda p body) g) := rfl

theorem eval_buildin_unfold (n : Nat) (m : Module') (g : Nat) (f : Native) :
    eval (n + 1) (.BuildIn f) m g = some (.ok (.BuildIn f) g) := rfl

theorem eval_apply_unfold (n : Nat) (m : Module') (g : Nat) (fe ae : Exp) :
    eval (n + 1) (.Apply fe ae) m g
      = match eval n fe m g with
        | some (.ok fv g1) =>
          match fv with
          | .Lambda p body =>
            match eval n ae m g1 with
            | some (.ok v g2) =>
              match subst n body p v g2 with
              | some (body1, g3) => eval n body1 m g3
              | none => none
            | some (.err e2) => some (.err e2)
            | some .panicked => some .panicked
            | none => none
          | .BuildIn bf => runNative (fun e2 g2 => eval n e2 m g2) n bf [ae] g1
          | other => some (.err (.NotApplicable other))
        | some (.err e2) => some (.err e2)
        | some .panicked => some .panicked
        | none => none := rfl

theorem eval_list_cons_unfold (n : Nat) (m : Module') (g : Nat) (hd : Exp) (t : List Exp) :
    eval (n + 1) (.List (hd :: t)) m g
      = match eval n hd m g with
        | some (.ok hv g1) =>
          match hv with
          | .BuildIn bf => runNative (fun e2 g2 => eval n e2 m g2) n bf t g1
          | .Lambda _ _ => eval n (t.foldl .Apply hv) m g1
          | _ =>
            match evalArgs (fun e2 g2 => eval n e2 m g2) t g1 with
            | some (.ok vs g2) => some (.ok (.List (hv :: vs)) g2)
            | some (.err e2) => some (.err e2)
            | some .panicked => some .panicked
            | none => none
        | some (.err e2) => some (.err e2)
        | some .panicked => some .panicked
        | none => none := rfl

theorem curry_wrapper_first_arg (nm : String) (f : Native)
    (h : default_module.lookup nm
      = some (.Lambda "x" (.Lambda "y" (.List [.BuildIn f, .Symbol "x", .Symbol "y"])))) :
    ∀ (n g : Nat) (v : Exp), AtomicVal v →
      eval (n + 4) (.Apply (.Symbol nm) v) default_module g
        = some (.ok (.Lambda "y" (.List [.BuildIn f, v, .Symbol "y"])) g) := by
  intro n g v hv
  have hs : eval (n + 3) (.Symbol nm) default_module g
      = some (.ok (.Lambda "x"
          (.Lambda "y" (.List [.BuildIn f, .Symbol "x", .Symbol "y"]))) g) := by
    rw [eval_symbol_unfold, h]
  have hvv : eval (n + 3) v default_module g = some (.ok v g) :=
    eval_atomic (n + 2) default_module g v hv
  have hocc : occursFree (n + 2) "y" v = some false :=
    occursFree_atomic (n + 1) "y" v hv
  have hsub : subst (n + 3)
      (.Lambda "y" (.List [.BuildIn f, .Symbol "x", .Symbol "y"])) "x" v g
      = some (.Lambda "y" (.List [.BuildIn f, v, .Symbol "y"]), g) := by
    simp [subst, substList, hocc]
  rw [eval_apply_unfold, hs]
  dsimp only
  rw [hvv]
  dsimp only
  rw [hsub]
  dsimp only
  exact eval_lambda_unfold (n + 2) default_module g "y" (.List [.BuildIn f, v, .Symbol "y"])

theorem curry_wrapper_second_arg (nm : String) (f : Native)
    (h : default_module.lookup nm
      = some (.Lambda "x" (.Lambda "y" (.List [.BuildIn f, .Symbol "x", .Symbol "y"])))) :
    ∀ (n g : Nat) (v w : Exp), AtomicVal v → AtomicVal w →
      eval (n + 6) (.Apply (.Apply (.Symbol nm) v) w) default_module g
        = runNative (fun e2 g2 => eval (n + 4) e2 default_module g2) (n + 4) f [v, w] g := by
  intro n g v w hv hw
  have hpart : eval (n + 5) (.Apply (.Symbol nm) v) default_module g
      = some (.ok (.Lambda "y" (.List [.BuildIn f, v, .Symbol "y"])) g) :=
    curry_wrapper_first_arg nm f h (n + 1) g v hv
  have hww : eval (n + 5) w default_module g = some (.ok w g) :=
    eval_atomic (n + 4) default_module g w hw
  have hsub : subst (n + 5) (.List [.BuildIn f, v, .Symbol "y"]) "y" w g
      = some (.List [.BuildIn f, v, w], g) := by
    cases v <;> first
      | rfl
      | exact absurd hv (by simp [AtomicVal, isAtomicB])
  rw [eval_apply_unfold, hpart]
  dsimp only
  rw [hww]
  dsimp only
  rw [hsub]
  dsimp only
  rw [eval_list_cons_unfold, eval_buildin_unfold]

/-- Claim C1: each binary native of the default definition table (`+`, `-`,
`*`, `/`, `==`, `/=`, `cons`, `nth`, `string-append`) is bound to a nested
pair of single-parameter abstractions whose body applies the stored native;
applying the binding to one evaluated (atomic) argument yields a procedure
value — an abstraction, not an error — and applying that value to a second
evaluated argument invokes the underlying native via `runNative`;
concretely, the full application of `+` to `Integer(1)` and `Integer(2)`
yields `Integer(3)`, and the partial application of `+` to `Integer(1)`
yields a procedure value. -/
theorem c1_curried_binary_natives :
    (∀ nm ∈ (["+", "-", "*", "/", "==", "/=", "cons", "nth", "string-append"] :
        List String),
      ∃ f : Native,
        default_module.lookup nm
          = some (.Lambda "x" (.Lambda "y" (.List [.BuildIn f, .Symbol "x", .Symbol "y"])))
        ∧ (∀ (n g : Nat) (v : Exp), AtomicVal v →
            eval (n + 4) (.Apply (.Symbol nm) v) default_module g
              = some (.ok (.Lambda "y" (.List [.BuildIn f, v, .Symbol "y"])) g))
        ∧ (∀ (n g : Nat) (v w : Exp), AtomicVal v → AtomicVal w →
            eval (n + 6) (.Apply (.Apply (.Symbol nm) v) w) default_module g
              = runNative (fun e2 g2 => eval (n + 4) e2 default_module g2)
                  (n + 4) f [v, w] g))
    ∧ eval 20 (.Apply (.Apply (.Symbol "+") (.Integer 1)) (.Integer 2)) default_module 0
        = some (.ok (.Integer 3) 0)
    ∧ eval 20 (.Apply (.Symbol "+") (.Integer 1)) default_module 0
        = some (.ok (.Lambda "y" (.List [.BuildIn .add, .Integer 1, .Symbol "y"])) 0) := by
  refine ⟨?_, rfl, rfl⟩
  intro nm hnm
  fin_cases hnm
  · exact ⟨.add, rfl, curry_wrapper_first_arg _ _ rfl, curry_wrapper_second_arg _ _ rfl⟩
  · exact ⟨.sub, rfl, curry_wrapper_first_arg _ _ rfl, curry_wrapper_second_arg _ _ rfl⟩
  · exact ⟨.mul, rfl, curry_wrapper_first_arg _ _ rfl, curry_wrapper_second_arg _ _ rfl⟩
  · exact ⟨.div, rfl, curry_wrapper_first_arg _ _ rfl, curry_wrapper_second_arg _ _ rfl⟩
  · exact ⟨.eq, rfl, curry_wrapper_first_arg _ _ rfl, curry_wrapper_second_arg _ _ rfl⟩
  · exact ⟨.ne, rfl, curry_wrapper_first_arg _ _ rfl, curry_wrapper_second_arg _ _ rfl⟩
  · exact ⟨.cons, rfl, curry_wrapper_first_arg _ _ rfl, curry_wrapper_second_arg _ _ rfl⟩
  · exact ⟨.nth, rfl, curry_wrapper_first_arg _ _ rfl, curry_wrapper_second_arg _ _ rfl⟩
  · exact ⟨.string_append, rfl, curry_wrapper_first_arg _ _ rfl,
      curry_wrapper_second_arg _ _ rfl⟩

/-- Witness for C1: the partial application of `+` to `Integer(1)`, through
the general part of the claim at fuel 5. -/
theorem c1_curried_binary_natives_witness :
    eval 9 (.Apply (.Symbol "+") (.Integer 1)) default_module 0
      = some (.ok (.Lambda "y" (.List [.BuildIn .add, .Integer 1, .Symbol "y"])) 0) := by
  obtain ⟨f, hl, hp, _⟩ := c1_curried_binary_natives.1 "+" (by simp)
  have h2 : Module'.lookup default_module "+"
      = some (.Lambda "x" (.Lambda "y"
          (.List [.BuildIn Native.add, .Symbol "x", .Symbol "y"]))) := rfl
  have hfa := Option.some.inj (hl.symm.trans h2)
  have hfeq : f = Native.add := by
    injection hfa with h1 hbody
    injection hbody with h3 hlist
    injection hlist with hitems
    injection hitems with hhead htail
    injection hhead with h6
  subst hfeq
  exact hp 5 0 (.Integer 1) rfl
